import Mathlib

/-!
Verification of the appointment-extraction-and-scheduling core of the
`diamond_family_vector` repository (`src/tools/ghl_mcp_client.py`).

The Python code is shallowly embedded: pure functions become Lean
functions; the network transport of the MCP client is passed in as an
explicit function argument, and every function that may talk to the
network also returns the list of payloads it actually sent, so that
"performs no network call" is provable; Python `datetime.now()` is
modelled as an explicit input.
-/

/-! ## Python string helpers -/

/-- Python slice `s[:stop]` where `stop` may be negative
(negative indices count from the end, clamped at 0). -/
def pyTake (s : String) (stop : Int) : String :=
  if stop < 0 then String.mk (s.data.take (s.data.length - stop.natAbs))
  else String.mk (s.data.take stop.toNat)

/-- Python `str.lower()` (ASCII case mapping, character by character;
defined over the character list so that it evaluates by kernel
reduction). -/
def pyLower (s : String) : String :=
  String.mk (s.data.map Char.toLower)

/-- Python `needle in hay` for strings: substring test. -/
def pyIn (needle hay : String) : Bool :=
  (List.range (hay.data.length + 1)).any
    (fun i => needle.data.isPrefixOf (hay.data.drop i))

/-! ## GHLMCPClient: static configuration (constructor of `GHLMCPClient`) -/

/-- `self.calendar_mappings` (insertion-ordered dict, `ghl_mcp_client.py:18-24`). -/
def calendar_mappings : List (String × String) :=
  [("demo", "1a2FZj1zqXPbPnrElQD1"),
   ("custom_jewelry", "1c0RCj9LXQr9iDQaDTn9"),
   ("appraisals", "7pRF2Il5lcRZIMBdSkBx"),
   ("campaign", "CuOcD0x88h7NPvfub9"),
   ("default", "1a2FZj1zqXPbPnrElQD1")]

/-- Dict access `self.calendar_mappings[k]` (all keys used by the code exist). -/
def calendarGet (k : String) : String :=
  (calendar_mappings.lookup k).getD ""

/-- `self.calendar_mappings.values()`. -/
def calendarValues : List String :=
  calendar_mappings.map Prod.snd

/-- `self.available_tools` (`ghl_mcp_client.py:27-37`). -/
def available_tools : List String :=
  ["get_contact_info",
   "list_opportunities",
   "trigger_webhook",
   "get_pipeline_info",
   "create_note",
   "search_contacts",
   "get_contact_activities",
   "create_opportunity",
   "create_contact_add_notes_schedule_appointment"]

/-! ## MCP tool dispatch

The JSON dict returned by `call_mcp_tool` is modelled by `GHLDict`: the
orchestrator only ever inspects the `"error"` key, so the dict is split
into that key (`error?`) and an opaque remainder (`rest`). The network
transport is a function from the POSTed payload to the dict the client
would produce for it (the parsed remote body on success, or the
`{"error": ...}` dict built in the `except` branches on failure). -/

/-- The body POSTed to `{base_url}/mcp/call_tool` (`ghl_mcp_client.py:44-47`). -/
structure Payload where
  tool_name : String
  arguments : List (String × String)
deriving DecidableEq, Repr

/-- A Python dict as observed by the scheduling code: the `"error"` key
and an opaque remainder. -/
structure GHLDict where
  error? : Option String
  rest : String
deriving DecidableEq, Repr

/-- `GHLMCPClient.call_mcp_tool` (`ghl_mcp_client.py:39-65`).  Returns the
resulting dict together with the list of network calls performed. -/
def call_mcp_tool (transport : Payload → GHLDict)
    (tool_name : String) (arguments : List (String × String)) :
    GHLDict × List Payload :=
  if available_tools.contains tool_name = false then
    ({error? := some ("Tool '" ++ tool_name ++ "' not available. Available tools: "
        ++ String.intercalate ", " available_tools),
      rest := ""}, [])
  else
    let payload : Payload := ⟨tool_name, arguments⟩
    (transport payload, [payload])

/-- `GHLMCPClient.create_contact_and_schedule` (`ghl_mcp_client.py:67-92`). -/
def create_contact_and_schedule (transport : Payload → GHLDict)
    (name email phone notes calendar_id start_time : String) :
    GHLDict × List Payload :=
  let calendar_id :=
    if calendarValues.contains calendar_id = false then calendarGet "default"
    else calendar_id
  call_mcp_tool transport "create_contact_add_notes_schedule_appointment"
    [("name", name), ("email", email), ("phone", phone), ("notes", notes),
     ("calendar_id", calendar_id), ("start_time", start_time)]

/-! ## Calendar selection -/

/-- Keyword bucket for the appraisals calendar (`ghl_mcp_client.py:155`). -/
def appraisalKeywords : List String :=
  ["appraisal", "appraise", "evaluation", "assessment", "value", "worth"]

/-- Keyword bucket for the custom-jewelry calendar (`ghl_mcp_client.py:157`). -/
def customKeywords : List String :=
  ["custom", "design", "bespoke", "personalized", "unique"]

/-- Keyword bucket for the campaign calendar (`ghl_mcp_client.py:159`). -/
def campaignKeywords : List String :=
  ["campaign", "promotion", "special offer", "deal"]

/-- `GHLMCPClient.select_calendar` (`ghl_mcp_client.py:150-162`). -/
def select_calendar (conversation_context : String) : String :=
  let context_lower := pyLower conversation_context
  if appraisalKeywords.any (fun word => pyIn word context_lower) then
    calendarGet "appraisals"
  else if customKeywords.any (fun word => pyIn word context_lower) then
    calendarGet "custom_jewelry"
  else if campaignKeywords.any (fun word => pyIn word context_lower) then
    calendarGet "campaign"
  else
    calendarGet "demo"

/-- The ordered keyword buckets as the spec describes them: bucket list in
strict priority order, each paired with its calendar-category key. -/
def calendarBuckets : List (List String × String) :=
  [(appraisalKeywords, "appraisals"),
   (customKeywords, "custom_jewelry"),
   (campaignKeywords, "campaign")]

/-- Calendar selection as worded by the spec: the first bucket any of
whose keywords occurs (case-insensitively) as a substring of the context
wins; `demo` when none matches. -/
def select_calendar_spec (conversation_context : String) : String :=
  match calendarBuckets.find?
      (fun b => b.1.any (fun word => pyIn word (pyLower conversation_context))) with
  | some b => calendarGet b.2
  | none => calendarGet "demo"

/-- `GHLMCPClient.get_calendar_type` (`ghl_mcp_client.py:164-172`). -/
def get_calendar_type (calendar_id : String) : String :=
  (([("1a2FZj1zqXPbPnrElQD1", "Demo"),
     ("1c0RCj9LXQr9iDQaDTn9", "Custom Jewelry Design"),
     ("7pRF2Il5lcRZIMBdSkBx", "Appraisals"),
     ("CuOcD0x88h7NPvfub9", "Campaign")] : List (String × String)).lookup
   calendar_id).getD "Unknown"

/-! ## Conversation summary (`CustomerInfoExtractor`) -/

/-- One conversation message (`{"role": ..., "content": ...}`). -/
structure Message where
  role : String
  content : String
deriving DecidableEq, Repr

/-- `CustomerInfoExtractor.generate_conversation_summary`
(`ghl_mcp_client.py:247-268`). -/
def generate_conversation_summary (messages : List Message)
    (max_length : Nat := 500) : String :=
  if messages.isEmpty then "No conversation data available."
  else
    let recent_messages :=
      if messages.length > 6 then messages.drop (messages.length - 6) else messages
    let summary_parts := recent_messages.map (fun msg =>
      (if msg.role = "user" then "Customer" else "Assistant") ++ ": "
        ++ String.mk (msg.content.data.take 100))
    let summary := String.intercalate " | " summary_parts
    let summary :=
      if summary.length > max_length then pyTake summary ((max_length : Int) - 3) ++ "..."
      else summary
    "Conversation Summary: " ++ summary

/-! ## Python `datetime` model

`suggest_appointment_time` uses `datetime.now()`, `timedelta(days=1)`,
`.weekday()`, `.replace(hour=14, minute=0, second=0, microsecond=0)` and
`.isoformat()`.  Dates are modelled by the proleptic Gregorian calendar
exactly as CPython's `datetime` implements it: `toordinal` counts days
from 0001-01-01 = day 1, and `weekday()` is `(toordinal - 1) % 7`
(Monday = 0 ... Sunday = 6). -/

/-- A calendar date (year, month 1-12, day 1-31). -/
structure Date where
  year : Nat
  month : Nat
  day : Nat
deriving DecidableEq, Repr

/-- Gregorian leap-year rule. -/
def isLeap (y : Nat) : Bool :=
  (y % 4 = 0 && y % 100 ≠ 0) || y % 400 = 0

/-- Number of days in a month. -/
def daysInMonth (y m : Nat) : Nat :=
  if m = 2 then (if isLeap y then 29 else 28)
  else if m = 4 ∨ m = 6 ∨ m = 9 ∨ m = 11 then 30
  else 31

/-- Days in year `y` strictly before month `m`. -/
def daysBeforeMonth (y : Nat) : Nat → Nat
  | 0 => 0
  | 1 => 0
  | m + 2 => daysBeforeMonth y (m + 1) + daysInMonth y (m + 1)

/-- Days strictly before January 1 of year `y` (CPython's `_days_before_year`). -/
def daysBeforeYear (y : Nat) : Nat :=
  365 * (y - 1) + (y - 1) / 4 - (y - 1) / 100 + (y - 1) / 400

/-- CPython's `date.toordinal()`: 0001-01-01 is day 1. -/
def toordinal (d : Date) : Nat :=
  daysBeforeYear d.year + daysBeforeMonth d.year d.month + d.day

/-- CPython's `date.weekday()`: Monday = 0 ... Sunday = 6. -/
def weekday (d : Date) : Nat :=
  (toordinal d + 6) % 7

/-- `d + timedelta(days=1)` at the date level. -/
def nextDay (d : Date) : Date :=
  if d.day < daysInMonth d.year d.month then ⟨d.year, d.month, d.day + 1⟩
  else if d.month < 12 then ⟨d.year, d.month + 1, 1⟩
  else ⟨d.year + 1, 1, 1⟩

/-- The date is one `datetime` can actually hold. -/
def ValidDate (d : Date) : Prop :=
  1 ≤ d.year ∧ 1 ≤ d.month ∧ d.month ≤ 12 ∧ 1 ≤ d.day ∧ d.day ≤ daysInMonth d.year d.month

instance (d : Date) : Decidable (ValidDate d) := by
  unfold ValidDate; infer_instance

/-- The `while next_business_day.weekday() >= 5` loop of
`suggest_appointment_time` (`ghl_mcp_client.py:196-197`), given explicit
fuel (the loop provably needs at most 2 iterations on valid dates). -/
def skipWeekend : Date → Nat → Date
  | d, 0 => d
  | d, fuel + 1 => if 5 ≤ weekday d then skipWeekend (nextDay d) fuel else d

/-- Zero-padded decimal rendering, as CPython's `%0*d`. -/
def padNum (width n : Nat) : String :=
  String.mk (List.replicate (width - (toString n).length) '0') ++ toString n

/-- A `datetime.datetime` value. -/
structure PyDateTime where
  date : Date
  hour : Nat
  minute : Nat
  second : Nat
  microsecond : Nat
deriving DecidableEq, Repr

/-- CPython's `datetime.isoformat()` (with its default separator; the
fractional part is omitted when `microsecond == 0`). -/
def isoformat (t : PyDateTime) : String :=
  padNum 4 t.date.year ++ "-" ++ padNum 2 t.date.month ++ "-" ++ padNum 2 t.date.day
    ++ "T" ++ padNum 2 t.hour ++ ":" ++ padNum 2 t.minute ++ ":" ++ padNum 2 t.second
    ++ (if t.microsecond ≠ 0 then "." ++ padNum 6 t.microsecond else "")

/-- The fallback branch of `suggest_appointment_time`
(`ghl_mcp_client.py:191-201`): tomorrow relative to `now`, advanced past
the weekend, at 14:00:00.000000. -/
def nextBusinessSuggestion (now : PyDateTime) : String :=
  isoformat ⟨skipWeekend (nextDay now.date) 7, 14, 0, 0, 0⟩

/-- `GHLMCPClient.suggest_appointment_time` (`ghl_mcp_client.py:181-201`).
`datetime.now()` is passed in as `now`; Python's `if preferred_time:`
is falsy exactly on `None` and the empty string. -/
def suggest_appointment_time (now : PyDateTime)
    (preferred_time : Option String) : String :=
  match preferred_time with
  | some t => if t = "" then nextBusinessSuggestion now else t
  | none => nextBusinessSuggestion now

/-! ## Phone extraction (`CustomerInfoExtractor.extract_contact_info`)

The phone part of `extract_contact_info` (`ghl_mcp_client.py:213,227-231`)
is `re.search` with the pattern

  `\b(?:\+?1[-.\s]?)?\(?([0-9]{3})\)?[-.\s]?([0-9]{3})[-.\s]?([0-9]{4})\b`

followed by `''.join(groups)` and re-slicing into `(AAA) BBB-CCCC`.
The pattern is hand-compiled below.  Every optional element
(`\+?`, `\(?`, `\)?`, `[-.\s]?`) is followed by a literal/class disjoint
from it (`1`, digits), so inside one alternative of the outer optional
group the match is deterministic: the element is consumed iff present.
The only genuine backtracking is the outer optional country-code group
itself, which the compiled matcher tries first with the group and then
without, exactly as the regex engine does.  (`\w` is modelled at its
ASCII core `[A-Za-z0-9_]`.) -/

/-- Regex `\w` (ASCII core). -/
def isWordChar (c : Char) : Bool :=
  c.isAlphanum || c = '_'

/-- Regex class `[-.\s]` (ASCII core of `\s`). -/
def isSepChar (c : Char) : Bool :=
  c = '-' || c = '.' || c = ' ' || c = '\t' || c = '\n' || c = '\r'
    || c = '\x0b' || c = '\x0c'

/-- Does the character at index `i` exist and satisfy `p`? -/
def testCharAt (s : List Char) (i : Nat) (p : Char → Bool) : Bool :=
  match s.get? i with
  | some c => p c
  | none => false

/-- Regex `\b` at index `i` of `s`. -/
def wordBoundary (s : List Char) (i : Nat) : Bool :=
  (if i = 0 then false else testCharAt s (i - 1) isWordChar)
    != testCharAt s i isWordChar

/-- Skip one character at `j` if it satisfies `p` (a `X?` regex element
whose follower is disjoint from `X`). -/
def skipIf (s : List Char) (j : Nat) (p : Char → Bool) : Nat :=
  if testCharAt s j p then j + 1 else j

/-- `n` digits starting at index `j`, as a capture group. -/
def takeDigits (s : List Char) (j : Nat) : Nat → Option (List Char)
  | 0 => some []
  | n + 1 =>
    match s.get? j with
    | some c => if c.isDigit then (takeDigits s (j + 1) n).map (c :: ·) else none
    | none => none

/-- The optional country-code group `(?:\+?1[-.\s]?)?` taken as present:
returns the index after the group, or `none` when the present-alternative
cannot match at `i`. -/
def matchCountryCode (s : List Char) (i : Nat) : Option Nat :=
  let i1 := skipIf s i (fun c => c = '+')
  if testCharAt s i1 (fun c => c = '1') then
    some (skipIf s (i1 + 1) isSepChar)
  else none

/-- The mandatory tail `\(?([0-9]{3})\)?[-.\s]?([0-9]{3})[-.\s]?([0-9]{4})\b`
starting at index `j`: the three capture groups on success. -/
def matchCore (s : List Char) (j : Nat) :
    Option (List Char × List Char × List Char) :=
  let j1 := skipIf s j (fun c => c = '(')
  match takeDigits s j1 3 with
  | none => none
  | some g1 =>
    let j2 := skipIf s (skipIf s (j1 + 3) (fun c => c = ')')) isSepChar
    match takeDigits s j2 3 with
    | none => none
    | some g2 =>
      let j3 := skipIf s (j2 + 3) isSepChar
      match takeDigits s j3 4 with
      | none => none
      | some g3 =>
        if wordBoundary s (j3 + 4) then some (g1, g2, g3) else none

/-- One anchored attempt of the full phone pattern at index `i`. -/
def matchPhoneAt (s : List Char) (i : Nat) :
    Option (List Char × List Char × List Char) :=
  if wordBoundary s i then
    match matchCountryCode s i with
    | some j =>
      match matchCore s j with
      | some g => some g
      | none => matchCore s i
    | none => matchCore s i
  else none

/-- `re.search`: try each start index left to right. -/
def searchPhoneFrom (s : List Char) (i : Nat) :
    Nat → Option (List Char × List Char × List Char)
  | 0 => none
  | fuel + 1 =>
    match matchPhoneAt s i with
    | some g => some g
    | none => searchPhoneFrom s (i + 1) fuel

/-- `re.search(phone_pattern, text)`, reported as the three groups. -/
def searchPhone (s : List Char) : Option (List Char × List Char × List Char) :=
  searchPhoneFrom s 0 (s.length + 1)

/-- `''.join(phone_match.groups())`. -/
def joinGroups (g : List Char × List Char × List Char) : List Char :=
  g.1 ++ g.2.1 ++ g.2.2

/-- `f"({phone[:3]}) {phone[3:6]}-{phone[6:]}"` (`ghl_mcp_client.py:231`). -/
def formatPhone (digits : List Char) : String :=
  "(" ++ String.mk (digits.take 3) ++ ") " ++ String.mk ((digits.drop 3).take 3)
    ++ "-" ++ String.mk (digits.drop 6)

/-- The `phone` field of `CustomerInfoExtractor.extract_contact_info`
(`ghl_mcp_client.py:227-231,244`). -/
def extract_contact_info_phone (conversation_text : String) : Option String :=
  match searchPhone conversation_text.data with
  | some g => some (formatPhone (joinGroups g))
  | none => none

/-! ## Scheduling orchestrator (`GHLAppointmentScheduler`) -/

/-- The envelope returned by `schedule_from_conversation`
(`ghl_mcp_client.py:290-293,316-327`). -/
inductive SchedulingResult where
  | failure (error : String)
  | success (result : GHLDict) (appointment_time : String)
      (calendar_type : String) (calendar_id : String)
deriving DecidableEq, Repr

/-- `GHLAppointmentScheduler.schedule_from_conversation`
(`ghl_mcp_client.py:277-327`).  The transport and `datetime.now()` are
explicit inputs; the list of issued network payloads is returned with
the envelope. -/
def schedule_from_conversation (transport : Payload → GHLDict)
    (now : PyDateTime) (conversation_messages : List Message)
    (customer_name customer_email customer_phone : String)
    (preferred_time : Option String := none)
    (appointment_type : String := "consultation") :
    SchedulingResult × List Payload :=
  if customer_name = "" ∨ customer_email = "" ∨ customer_phone = "" then
    (.failure "Missing required customer information (name, email, phone)", [])
  else
    let conversation_summary := generate_conversation_summary conversation_messages
    let conversation_text :=
      String.intercalate " " (conversation_messages.map (fun msg => msg.content))
    let calendar_id := select_calendar conversation_text
    let appointment_time := suggest_appointment_time now preferred_time
    let r := create_contact_and_schedule transport customer_name customer_email
      customer_phone conversation_summary calendar_id appointment_time
    match r.1.error? with
    | some e => (.failure e, r.2)
    | none =>
      (.success r.1 appointment_time (get_calendar_type calendar_id) calendar_id, r.2)

/-- The summary body as the spec words it (before any prefixed label):
last-6 window, each message rendered as role plus first 100 characters,
joined with separators, then hard-truncated to `max_length` characters
with a trailing ellipsis on overflow. -/
def summarySpec (messages : List Message) (max_length : Nat) : String :=
  let window := messages.drop (messages.length - 6)
  let rendered := window.map (fun msg =>
    (if msg.role = "user" then "Customer" else "Assistant") ++ ": "
      ++ String.mk (msg.content.data.take 100))
  let joined := String.intercalate " | " rendered
  if joined.length ≤ max_length then joined
  else String.mk (joined.data.take (max_length - 3)) ++ "..."

/-! ## Calendar arithmetic lemmas (claim C7) -/

/-- Unfolding of the leap-year rule to arithmetic. -/
theorem isLeap_iff (y : Nat) :
    isLeap y = true ↔ ((y % 4 = 0 ∧ ¬ y % 100 = 0) ∨ y % 400 = 0) := by
  simp [isLeap]

/-- Every month has at least one day. -/
theorem one_le_daysInMonth (y m : Nat) : 1 ≤ daysInMonth y m := by
  unfold daysInMonth
  split_ifs <;> omega

/-- Peeling one month off the days-before-month count. -/
theorem daysBeforeMonth_succ (y m : Nat) (h : 1 ≤ m) :
    daysBeforeMonth y (m + 1) = daysBeforeMonth y m + daysInMonth y m := by
  cases m with
  | zero => omega
  | succ n => rfl

/-- Peeling one year off the days-before-year count. -/
theorem daysBeforeYear_succ (y : Nat) (h : 1 ≤ y) :
    daysBeforeYear (y + 1) = daysBeforeYear y + (if isLeap y then 366 else 365) := by
  obtain ⟨a, rfl⟩ : ∃ a, y = a + 1 := ⟨y - 1, by omega⟩
  unfold daysBeforeYear
  simp only [Nat.add_sub_cancel]
  rw [Nat.succ_div a 4, Nat.succ_div a 100, Nat.succ_div a 400]
  by_cases hb : isLeap (a + 1) = true
  · have harith := (isLeap_iff (a + 1)).mp hb
    rw [if_pos hb]
    split_ifs <;> omega
  · have harith : ¬ (((a + 1) % 4 = 0 ∧ ¬ (a + 1) % 100 = 0) ∨ (a + 1) % 400 = 0) :=
      fun hc => hb ((isLeap_iff (a + 1)).mpr hc)
    rw [if_neg hb]
    split_ifs <;> omega

/-- The whole year is the days before December plus December's days. -/
theorem daysBeforeMonth_year (y : Nat) :
    daysBeforeMonth y 12 + daysInMonth y 12 = if isLeap y then 366 else 365 := by
  by_cases hb : isLeap y = true
  · simp [daysBeforeMonth, daysInMonth, hb]
  · simp [daysBeforeMonth, daysInMonth, hb]

/-- Stepping one day forward adds exactly one to the ordinal. -/
theorem toordinal_nextDay (d : Date) (h : ValidDate d) :
    toordinal (nextDay d) = toordinal d + 1 := by
  obtain ⟨hy, hm1, hm2, hd1, hd2⟩ := h
  unfold nextDay
  split
  · rename_i hday
    simp [toordinal]
    omega
  · rename_i hday
    split
    · rename_i hmon
      simp [toordinal, daysBeforeMonth_succ d.year d.month hm1]
      omega
    · rename_i hmon
      have hm : d.month = 12 := by omega
      have hd : d.day = daysInMonth d.year d.month := by omega
      have hyr := daysBeforeMonth_year d.year
      rw [hm] at hd
      simp only [toordinal, hm]
      rw [daysBeforeYear_succ d.year hy]
      simp [daysBeforeMonth] at hyr ⊢
      omega

/-- Stepping one day forward preserves validity. -/
theorem validDate_nextDay (d : Date) (h : ValidDate d) : ValidDate (nextDay d) := by
  obtain ⟨hy, hm1, hm2, hd1, hd2⟩ := h
  unfold nextDay
  split
  · rename_i hday
    exact ⟨hy, hm1, hm2, Nat.succ_le_succ (Nat.zero_le _), hday⟩
  · rename_i hday
    split
    · rename_i hmon
      exact ⟨hy, Nat.succ_le_succ (Nat.zero_le _), hmon, Nat.le_refl 1,
        one_le_daysInMonth _ _⟩
    · rename_i hmon
      exact ⟨Nat.succ_le_succ (Nat.zero_le _), Nat.le_refl 1,
        (show (1 : Nat) ≤ 12 by decide), Nat.le_refl 1, one_le_daysInMonth _ _⟩

/-- Weekdays cycle through the week as days advance. -/
theorem weekday_nextDay (d : Date) (h : ValidDate d) :
    weekday (nextDay d) = (weekday d + 1) % 7 := by
  unfold weekday
  rw [toordinal_nextDay d h]
  omega

/-- Weekday values are always below 7. -/
theorem weekday_lt_seven (d : Date) : weekday d < 7 :=
  Nat.mod_lt _ (by norm_num)

/-- One unfolding step of the weekend-skipping loop. -/
theorem skipWeekend_succ (d : Date) (fuel : Nat) :
    skipWeekend d (fuel + 1) = if 5 ≤ weekday d then skipWeekend (nextDay d) fuel else d :=
  rfl

/-! ## Claim C7 -/

/-- Claim C7: with no preferred time, `suggest_appointment_time` returns
the ISO-8601 rendering, at 14:00:00 with zero minutes/seconds/
microseconds, of the first weekday strictly after `now`'s date: there is
a step count `k` (so the weekend-skipping loop terminates, within at
most two extra steps) such that the suggested date is `now`'s date
advanced `k` days, it falls on a weekday, and every strictly earlier
advanced day after `now` fell on the weekend. -/
theorem suggest_time_default_first_weekday (now : PyDateTime)
    (h : ValidDate now.date) :
    ∃ k, 1 ≤ k ∧ k ≤ 3 ∧
      weekday (nextDay^[k] now.date) < 5 ∧
      (∀ j, 1 ≤ j → j < k → 5 ≤ weekday (nextDay^[j] now.date)) ∧
      suggest_appointment_time now none =
        isoformat ⟨nextDay^[k] now.date, 14, 0, 0, 0⟩ := by
  have h1 : ValidDate (nextDay now.date) := validDate_nextDay now.date h
  have h2 : ValidDate (nextDay (nextDay now.date)) := validDate_nextDay _ h1
  have hw2 := weekday_nextDay (nextDay now.date) h1
  have hw3 := weekday_nextDay (nextDay (nextDay now.date)) h2
  have hit1 : nextDay^[1] now.date = nextDay now.date := by
    rw [Function.iterate_one]
  have hit2 : nextDay^[2] now.date = nextDay (nextDay now.date) := by
    rw [Function.iterate_succ_apply', hit1]
  have hit3 : nextDay^[3] now.date = nextDay (nextDay (nextDay now.date)) := by
    rw [Function.iterate_succ_apply', hit2]
  have hw7 := weekday_lt_seven (nextDay now.date)
  rcases Nat.lt_or_ge (weekday (nextDay now.date)) 5 with hlt | hge
  · refine ⟨1, Nat.le_refl 1, by omega, ?_, ?_, ?_⟩
    · rw [hit1]
      exact hlt
    · intro j hj1 hjk
      omega
    · simp only [suggest_appointment_time, nextBusinessSuggestion]
      rw [hit1]
      have hskip : skipWeekend (nextDay now.date) 7 = nextDay now.date := by
        rw [skipWeekend_succ, if_neg (by omega)]
      rw [hskip]
  · have hor : weekday (nextDay now.date) = 5 ∨ weekday (nextDay now.date) = 6 := by
      omega
    rcases hor with h5 | h6
    · have hw2' : weekday (nextDay (nextDay now.date)) = 6 := by
        rw [hw2, h5]
      have hw3' : weekday (nextDay (nextDay (nextDay now.date))) = 0 := by
        rw [hw3, hw2']
      refine ⟨3, by omega, Nat.le_refl 3, ?_, ?_, ?_⟩
      · rw [hit3, hw3']
        omega
      · intro j hj1 hjk
        have : j = 1 ∨ j = 2 := by omega
        rcases this with rfl | rfl
        · rw [hit1, h5]
        · rw [hit2, hw2']
          omega
      · simp only [suggest_appointment_time, nextBusinessSuggestion]
        rw [hit3]
        have hskip : skipWeekend (nextDay now.date) 7 =
            nextDay (nextDay (nextDay now.date)) := by
          rw [skipWeekend_succ, if_pos (by omega), skipWeekend_succ, if_pos (by omega),
            skipWeekend_succ, if_neg (by omega)]
        rw [hskip]
    · have hw2' : weekday (nextDay (nextDay now.date)) = 0 := by
        rw [hw2, h6]
      refine ⟨2, by omega, by omega, ?_, ?_, ?_⟩
      · rw [hit2, hw2']
        omega
      · intro j hj1 hjk
        have : j = 1 := by omega
        rcases this with rfl
        rw [hit1, h6]
        omega
      · simp only [suggest_appointment_time, nextBusinessSuggestion]
        rw [hit2]
        have hskip : skipWeekend (nextDay now.date) 7 =
            nextDay (nextDay now.date) := by
          rw [skipWeekend_succ, if_pos (by omega), skipWeekend_succ, if_neg (by omega)]
        rw [hskip]

/-- Concrete instance of claim C7: a Friday afternoon clock suggests the
following Monday at 14:00. -/
theorem suggest_time_default_first_weekday_witness :
    ∃ k, 1 ≤ k ∧ k ≤ 3 ∧
      weekday (nextDay^[k] (⟨⟨2024, 2, 16⟩, 9, 30, 0, 0⟩ : PyDateTime).date) < 5 ∧
      (∀ j, 1 ≤ j → j < k →
        5 ≤ weekday (nextDay^[j] (⟨⟨2024, 2, 16⟩, 9, 30, 0, 0⟩ : PyDateTime).date)) ∧
      suggest_appointment_time (⟨⟨2024, 2, 16⟩, 9, 30, 0, 0⟩ : PyDateTime) none =
        isoformat ⟨nextDay^[k] (⟨⟨2024, 2, 16⟩, 9, 30, 0, 0⟩ : PyDateTime).date,
          14, 0, 0, 0⟩ :=
  suggest_time_default_first_weekday ⟨⟨2024, 2, 16⟩, 9, 30, 0, 0⟩ (by decide)

/-! ## Summary lemmas (claims C4 and C10) -/

/-- The source's truncation step (Python slice plus ellipsis) agrees
with the spec-worded truncation for `max_length ≥ 3`. -/
theorem truncStep_eq (joined : String) (max_length : Nat) (h : 3 ≤ max_length) :
    (if joined.length > max_length then pyTake joined ((max_length : Int) - 3) ++ "..."
     else joined) =
      (if joined.length ≤ max_length then joined
       else String.mk (joined.data.take (max_length - 3)) ++ "...") := by
  rcases le_or_lt joined.length max_length with hle | hgt
  · rw [if_neg (by omega), if_pos hle]
  · rw [if_pos hgt, if_neg (by omega)]
    have hnn : ¬ ((max_length : Int) - 3 < 0) := by omega
    have ht : ((max_length : Int) - 3).toNat = max_length - 3 := by omega
    rw [pyTake, if_neg hnn, ht]

/-- The spec-worded truncation never exceeds `max_length` when
`max_length ≥ 3`. -/
theorem truncStep_le (joined : String) (max_length : Nat) (h : 3 ≤ max_length) :
    (if joined.length ≤ max_length then joined
     else String.mk (joined.data.take (max_length - 3)) ++ "...").length ≤ max_length := by
  split
  · assumption
  · have h1 : (String.mk (joined.data.take (max_length - 3))).length ≤ max_length - 3 := by
      show (joined.data.take (max_length - 3)).length ≤ max_length - 3
      simpa using Nat.min_le_left _ _
    have h2 : ("..." : String).length = 3 := rfl
    rw [String.length_append, h2]
    omega

/-! ## Claim C4 (corrected) -/

/-- Counterexample to claim C4 as stated: the claim says the returned
string never exceeds `max_length` characters, but with one empty user
message and `max_length = 5` the function returns a 27-character string,
because the `"Conversation Summary: "` label is prepended after the
truncation. -/
theorem summary_exceeds_max_length_counterexample :
    generate_conversation_summary [⟨"user", ""⟩] 5 = "Conversation Summary: Cu..." ∧
    ¬ ((generate_conversation_summary [⟨"user", ""⟩] 5).length ≤ 5) := by
  constructor
  · decide
  · decide

/-- Claim C4 amended: the last-6 window is rendered and joined as the
claim says and the joined string is truncated to at most `max_length`
characters with a trailing ellipsis (for `max_length ≥ 3`); but the
returned string is that truncated summary with the fixed label
prepended afterwards, so only the part after the label respects the
bound. -/
theorem summary_truncates_before_label (messages : List Message) (max_length : Nat)
    (h1 : messages ≠ []) (h2 : 3 ≤ max_length) :
    generate_conversation_summary messages max_length =
      "Conversation Summary: " ++ summarySpec messages max_length ∧
    (summarySpec messages max_length).length ≤ max_length := by
  have hne : messages.isEmpty = false := by
    cases messages with
    | nil => cases h1 rfl
    | cons a l => rfl
  have hwin : (if messages.length > 6 then messages.drop (messages.length - 6)
      else messages) = messages.drop (messages.length - 6) := by
    split
    · rfl
    · rw [Nat.sub_eq_zero_of_le (by omega), List.drop_zero]
  constructor
  · simp only [generate_conversation_summary, summarySpec, hne, Bool.false_eq_true,
      if_false]
    rw [hwin]
    exact congrArg _ (truncStep_eq _ _ h2)
  · simp only [summarySpec]
    exact truncStep_le _ _ h2

/-- Concrete instance of amended claim C4: a long single-message
conversation is truncated to 40 characters before the label. -/
theorem summary_truncates_before_label_witness :
    generate_conversation_summary [⟨"user", "I would like to schedule an appraisal of my grandmother's ring next week"⟩] 40 =
      "Conversation Summary: "
        ++ summarySpec [⟨"user", "I would like to schedule an appraisal of my grandmother's ring next week"⟩] 40 ∧
    (summarySpec [⟨"user", "I would like to schedule an appraisal of my grandmother's ring next week"⟩] 40).length ≤ 40 :=
  summary_truncates_before_label _ _ (by decide) (by decide)

/-! ## Claim C10 -/

/-- Claim C10: every non-empty conversation's summary starts with the
literal label `"Conversation Summary: "`, the label is added after the
`max_length` truncation (so the total length reaches
`max_length + 22`), and the empty conversation yields exactly
`"No conversation data available."` with no label. -/
theorem summary_label_prefix_and_empty_case :
    (∀ (messages : List Message) (max_length : Nat), messages ≠ [] →
      ∃ r, generate_conversation_summary messages max_length =
        "Conversation Summary: " ++ r) ∧
    (∀ max_length, generate_conversation_summary [] max_length =
      "No conversation data available.") ∧
    (∃ (messages : List Message) (max_length : Nat), messages ≠ [] ∧
      (generate_conversation_summary messages max_length).length = max_length + 22) := by
  refine ⟨?_, ?_, ?_⟩
  · intro messages max_length h
    cases messages with
    | nil => cases h rfl
    | cons a l => exact ⟨_, rfl⟩
  · intro max_length
    rfl
  · exact ⟨[⟨"user", String.mk (List.replicate 100 'a')⟩], 50, by decide, by decide⟩

/-- Concrete instance of claim C10's label part. -/
theorem summary_label_prefix_and_empty_case_witness :
    ∃ r, generate_conversation_summary [⟨"user", "hello"⟩] 500 =
      "Conversation Summary: " ++ r :=
  summary_label_prefix_and_empty_case.1 [⟨"user", "hello"⟩] 500 (by decide)

/-! ## Claim C1 -/

/-- Claim C1: whenever any of the three customer identity fields is
empty, `schedule_from_conversation` returns the fixed failure envelope
and issues no network call (the transport payload trace is empty). -/
theorem schedule_missing_fields_fails_without_network
    (transport : Payload → GHLDict) (now : PyDateTime)
    (conversation_messages : List Message)
    (customer_name customer_email customer_phone : String)
    (preferred_time : Option String) (appointment_type : String)
    (h : customer_name = "" ∨ customer_email = "" ∨ customer_phone = "") :
    schedule_from_conversation transport now conversation_messages
        customer_name customer_email customer_phone preferred_time appointment_type =
      (.failure "Missing required customer information (name, email, phone)", []) := by
  unfold schedule_from_conversation
  rw [if_pos h]

/-- Concrete instance of claim C1: empty email, with a transport that
would answer any call. -/
theorem schedule_missing_fields_fails_without_network_witness :
    schedule_from_conversation (fun _ => ⟨none, "ok"⟩) ⟨⟨2024, 2, 14⟩, 9, 0, 0, 0⟩
        [⟨"user", "hi"⟩] "John Doe" "" "(555) 123-4567" none "consultation" =
      (.failure "Missing required customer information (name, email, phone)", []) :=
  schedule_missing_fields_fails_without_network _ _ _ _ _ _ _ _ (Or.inr (Or.inl rfl))

/-! ## Claim C2 -/

/-- Claim C2: `select_calendar` evaluates the four keyword buckets in
the strict order appraisals, custom, campaign, demo — equivalently, the
first bucket in the ordered bucket list any of whose keywords occurs
case-insensitively as a substring wins, with demo as default; the
result is always one of the configured mapping's values; and a context
containing both an appraisal keyword and a custom keyword resolves to
the appraisals calendar id. -/
theorem select_calendar_bucket_order (conversation_context : String) :
    select_calendar conversation_context = select_calendar_spec conversation_context ∧
    select_calendar conversation_context ∈ calendarValues ∧
    ((∃ w ∈ appraisalKeywords, pyIn w (pyLower conversation_context) = true) →
     (∃ w ∈ customKeywords, pyIn w (pyLower conversation_context) = true) →
     select_calendar conversation_context = "7pRF2Il5lcRZIMBdSkBx") := by
  refine ⟨?_, ?_, ?_⟩
  · simp only [select_calendar, select_calendar_spec, calendarBuckets]
    cases h1 : appraisalKeywords.any (fun word => pyIn word (pyLower conversation_context)) <;>
    cases h2 : customKeywords.any (fun word => pyIn word (pyLower conversation_context)) <;>
    cases h3 : campaignKeywords.any (fun word => pyIn word (pyLower conversation_context)) <;>
      simp [List.find?, h1, h2, h3]
  · simp only [select_calendar]
    split_ifs <;> decide
  · intro h1 h2
    have ha : appraisalKeywords.any (fun word => pyIn word (pyLower conversation_context))
        = true :=
      List.any_eq_true.mpr h1
    simp only [select_calendar]
    rw [if_pos ha]
    decide

/-- Concrete instance of claim C2: a context naming both a custom design
and an appraisal lands on the appraisals calendar. -/
theorem select_calendar_bucket_order_witness :
    select_calendar "Can you appraise my custom design ring" = "7pRF2Il5lcRZIMBdSkBx" :=
  (select_calendar_bucket_order "Can you appraise my custom design ring").2.2
    ⟨"appraise", by decide, by decide⟩ ⟨"custom", by decide, by decide⟩

/-! ## Claim C3 -/

/-- Claim C3: a tool name outside the allow-list makes `call_mcp_tool`
return the unsupported-tool error dict with no network call, and in
particular `call_mcp_tool "delete_everything" []` does so. -/
theorem call_mcp_tool_rejects_unknown_tool
    (transport : Payload → GHLDict) (tool_name : String)
    (arguments : List (String × String))
    (h : tool_name ∉ available_tools) :
    call_mcp_tool transport tool_name arguments =
      ({error? := some ("Tool '" ++ tool_name ++ "' not available. Available tools: "
          ++ String.intercalate ", " available_tools), rest := ""}, []) ∧
    call_mcp_tool transport "delete_everything" [] =
      ({error? := some ("Tool 'delete_everything' not available. Available tools: "
          ++ String.intercalate ", " available_tools), rest := ""}, []) := by
  refine ⟨?_, rfl⟩
  have hc : available_tools.contains tool_name = false := by
    simpa using h
  unfold call_mcp_tool
  rw [hc]
  simp

/-- Concrete instance of claim C3 at the tool name from the spec. -/
theorem call_mcp_tool_rejects_unknown_tool_witness :
    call_mcp_tool (fun _ => ⟨none, "ok"⟩) "delete_everything" [] =
      ({error? := some ("Tool 'delete_everything' not available. Available tools: "
          ++ String.intercalate ", " available_tools), rest := ""}, []) :=
  (call_mcp_tool_rejects_unknown_tool (fun _ => ⟨none, "ok"⟩) "delete_everything" []
    (by decide)).1

/-! ## Claim C6 -/

/-- Counterexample to claim C6 as stated: the empty string is a
caller-supplied `preferred_time`, but Python's `if preferred_time:` is
falsy on it, so the weekday-suggestion branch runs instead of returning
it unmodified. -/
theorem suggest_time_empty_string_not_returned :
    suggest_appointment_time ⟨⟨2024, 2, 14⟩, 9, 0, 0, 0⟩ (some "") =
        "2024-02-15T14:00:00" ∧
      ("2024-02-15T14:00:00" : String) ≠ "" := by
  constructor
  · rfl
  · decide

/-- Claim C6 amended: every non-empty caller-supplied `preferred_time`
is returned unmodified, with no parsing, validation or reformatting. -/
theorem suggest_time_nonempty_passthrough (now : PyDateTime)
    (preferred_time : String) (h : preferred_time ≠ "") :
    suggest_appointment_time now (some preferred_time) = preferred_time := by
  simp [suggest_appointment_time, h]

/-- Concrete instance of amended claim C6 at the spec's round-trip
example. -/
theorem suggest_time_nonempty_passthrough_witness :
    suggest_appointment_time ⟨⟨2024, 2, 14⟩, 9, 0, 0, 0⟩ (some "2024-02-15T14:30:00") =
      "2024-02-15T14:30:00" :=
  suggest_time_nonempty_passthrough _ _ (by decide)

/-! ## Claim C8 -/

/-- Claim C8: `create_contact_and_schedule` substitutes the default
calendar id for an unrecognized one and still issues the scheduling
call, and passes a recognized calendar id through unchanged; it never
fails locally over the calendar id. -/
theorem create_contact_and_schedule_calendar_fallback
    (transport : Payload → GHLDict)
    (name email phone notes calendar_id start_time : String) :
    (calendar_id ∉ calendarValues →
      create_contact_and_schedule transport name email phone notes calendar_id start_time =
        (transport ⟨"create_contact_add_notes_schedule_appointment",
            [("name", name), ("email", email), ("phone", phone), ("notes", notes),
             ("calendar_id", "1a2FZj1zqXPbPnrElQD1"), ("start_time", start_time)]⟩,
         [⟨"create_contact_add_notes_schedule_appointment",
            [("name", name), ("email", email), ("phone", phone), ("notes", notes),
             ("calendar_id", "1a2FZj1zqXPbPnrElQD1"), ("start_time", start_time)]⟩])) ∧
    (calendar_id ∈ calendarValues →
      create_contact_and_schedule transport name email phone notes calendar_id start_time =
        (transport ⟨"create_contact_add_notes_schedule_appointment",
            [("name", name), ("email", email), ("phone", phone), ("notes", notes),
             ("calendar_id", calendar_id), ("start_time", start_time)]⟩,
         [⟨"create_contact_add_notes_schedule_appointment",
            [("name", name), ("email", email), ("phone", phone), ("notes", notes),
             ("calendar_id", calendar_id), ("start_time", start_time)]⟩])) := by
  constructor
  · intro h
    have hc : calendarValues.contains calendar_id = false := by
      simpa using h
    have hdef : calendarGet "default" = "1a2FZj1zqXPbPnrElQD1" := by decide
    unfold create_contact_and_schedule call_mcp_tool
    rw [hc]
    simp +decide [hdef]
  · intro h
    have hc : calendarValues.contains calendar_id = true := by
      simpa using h
    unfold create_contact_and_schedule call_mcp_tool
    rw [hc]
    simp +decide

/-- Concrete instances of claim C8: a bogus calendar id is replaced by
the default id and the call still goes out; a configured id survives. -/
theorem create_contact_and_schedule_calendar_fallback_witness :
    create_contact_and_schedule (fun _ => ⟨none, "ok"⟩) "John" "j@x.com" "(555) 123-4567"
        "notes" "bogus-id" "2024-02-15T14:00:00" =
      (⟨none, "ok"⟩,
       [⟨"create_contact_add_notes_schedule_appointment",
          [("name", "John"), ("email", "j@x.com"), ("phone", "(555) 123-4567"),
           ("notes", "notes"), ("calendar_id", "1a2FZj1zqXPbPnrElQD1"),
           ("start_time", "2024-02-15T14:00:00")]⟩]) ∧
    create_contact_and_schedule (fun _ => ⟨none, "ok"⟩) "John" "j@x.com" "(555) 123-4567"
        "notes" "7pRF2Il5lcRZIMBdSkBx" "2024-02-15T14:00:00" =
      (⟨none, "ok"⟩,
       [⟨"create_contact_add_notes_schedule_appointment",
          [("name", "John"), ("email", "j@x.com"), ("phone", "(555) 123-4567"),
           ("notes", "notes"), ("calendar_id", "7pRF2Il5lcRZIMBdSkBx"),
           ("start_time", "2024-02-15T14:00:00")]⟩]) :=
  ⟨(create_contact_and_schedule_calendar_fallback _ _ _ _ _ _ _).1 (by decide),
   (create_contact_and_schedule_calendar_fallback _ _ _ _ _ _ _).2 (by decide)⟩

/-! ## Claim C9 -/

/-- Claim C9: `appointment_type` is accepted but dead — two calls to
`schedule_from_conversation` differing only in `appointment_type`
(same transport, clock, messages, customer fields and preferred time)
return identical envelopes and identical network traces. -/
theorem schedule_ignores_appointment_type
    (transport : Payload → GHLDict) (now : PyDateTime)
    (conversation_messages : List Message)
    (customer_name customer_email customer_phone : String)
    (preferred_time : Option String) (appointment_type₁ appointment_type₂ : String) :
    schedule_from_conversation transport now conversation_messages
        customer_name customer_email customer_phone preferred_time appointment_type₁ =
      schedule_from_conversation transport now conversation_messages
        customer_name customer_email customer_phone preferred_time appointment_type₂ :=
  rfl

/-! ## Phone matcher lemmas (claim C5) -/

/-- A successful character test means the index is in range. -/
theorem testCharAt_lt (s : List Char) (i : Nat) (p : Char → Bool)
    (h : testCharAt s i p = true) : i < s.length := by
  unfold testCharAt at h
  cases hc : s.get? i with
  | none => rw [hc] at h; cases h
  | some c => exact (List.get?_eq_some.mp hc).1

/-- Skipping an optional character never moves the index backwards. -/
theorem skipIf_ge (s : List Char) (j : Nat) (p : Char → Bool) : j ≤ skipIf s j p := by
  unfold skipIf
  split <;> omega

/-- A captured digit group has the requested length and is all digits. -/
theorem takeDigits_spec (s : List Char) :
    ∀ (n j : Nat) (g : List Char), takeDigits s j n = some g →
      g.length = n ∧ g.all Char.isDigit = true := by
  intro n
  induction n with
  | zero =>
    intro j g hg
    simp only [takeDigits, Option.some.injEq] at hg
    subst hg
    exact ⟨rfl, rfl⟩
  | succ n ih =>
    intro j g hg
    simp only [takeDigits] at hg
    cases hc : s.get? j with
    | none => rw [hc] at hg; cases hg
    | some c =>
      simp only [hc] at hg
      by_cases hd : c.isDigit = true
      · rw [if_pos hd] at hg
        cases ht : takeDigits s (j + 1) n with
        | none => rw [ht] at hg; cases hg
        | some g' =>
          rw [ht] at hg
          simp only [Option.map_some', Option.some.injEq] at hg
          subst hg
          obtain ⟨hl, ha⟩ := ih (j + 1) g' ht
          refine ⟨by simp [hl], ?_⟩
          simp [List.all_cons, hd, ha]
      · rw [if_neg hd] at hg
        cases hg

/-- A non-empty digit capture starts inside the string. -/
theorem takeDigits_lt (s : List Char) (n j : Nat) (g : List Char)
    (h : takeDigits s j (n + 1) = some g) : j < s.length := by
  simp only [takeDigits] at h
  cases hc : s.get? j with
  | none => rw [hc] at h; cases h
  | some c => exact (List.get?_eq_some.mp hc).1

/-- The core of the pattern yields three digit groups of sizes 3, 3, 4,
and only succeeds inside the string. -/
theorem matchCore_spec (s : List Char) (j : Nat)
    (g : List Char × List Char × List Char) (h : matchCore s j = some g) :
    g.1.length = 3 ∧ g.2.1.length = 3 ∧ g.2.2.length = 4 ∧
      g.1.all Char.isDigit = true ∧ g.2.1.all Char.isDigit = true ∧
      g.2.2.all Char.isDigit = true ∧ j < s.length := by
  simp only [matchCore] at h
  cases h1 : takeDigits s (skipIf s j (fun c => c = '(')) 3 with
  | none => rw [h1] at h; cases h
  | some g1 =>
    simp only [h1] at h
    cases h2 : takeDigits s
        (skipIf s (skipIf s (skipIf s j (fun c => c = '(') + 3) (fun c => c = ')'))
          isSepChar) 3 with
    | none => rw [h2] at h; cases h
    | some g2 =>
      simp only [h2] at h
      cases h3 : takeDigits s
          (skipIf s (skipIf s (skipIf s (skipIf s j (fun c => c = '(') + 3)
            (fun c => c = ')')) isSepChar + 3) isSepChar) 4 with
      | none => rw [h3] at h; cases h
      | some g3 =>
        simp only [h3] at h
        by_cases hb : wordBoundary s
            (skipIf s (skipIf s (skipIf s (skipIf s j (fun c => c = '(') + 3)
              (fun c => c = ')')) isSepChar + 3) isSepChar + 4) = true
        · rw [if_pos hb] at h
          simp only [Option.some.injEq] at h
          subst h
          obtain ⟨hl1, ha1⟩ := takeDigits_spec s 3 _ g1 h1
          obtain ⟨hl2, ha2⟩ := takeDigits_spec s 3 _ g2 h2
          obtain ⟨hl3, ha3⟩ := takeDigits_spec s 4 _ g3 h3
          have hj1 : skipIf s j (fun c => c = '(') < s.length := takeDigits_lt s 2 _ g1 h1
          have hj : j ≤ skipIf s j (fun c => c = '(') := skipIf_ge s j _
          exact ⟨hl1, hl2, hl3, ha1, ha2, ha3, by omega⟩
        · rw [if_neg hb] at h
          cases h

/-- A present country-code group starts inside the string. -/
theorem matchCountryCode_lt (s : List Char) (i : Nat) (j : Nat)
    (h : matchCountryCode s i = some j) : i < s.length := by
  simp only [matchCountryCode] at h
  by_cases h1 : testCharAt s (skipIf s i (fun c => c = '+')) (fun c => c = '1') = true
  · have hlt := testCharAt_lt s _ _ h1
    have hge := skipIf_ge s i (fun c => c = '+')
    omega
  · rw [if_neg h1] at h
    cases h

/-- A successful anchored match yields digit groups of sizes 3, 3, 4 and
starts inside the string. -/
theorem matchPhoneAt_spec (s : List Char) (i : Nat)
    (g : List Char × List Char × List Char) (h : matchPhoneAt s i = some g) :
    g.1.length = 3 ∧ g.2.1.length = 3 ∧ g.2.2.length = 4 ∧
      g.1.all Char.isDigit = true ∧ g.2.1.all Char.isDigit = true ∧
      g.2.2.all Char.isDigit = true ∧ i < s.length := by
  simp only [matchPhoneAt] at h
  by_cases hb : wordBoundary s i = true
  · rw [if_pos hb] at h
    cases hcc : matchCountryCode s i with
    | none =>
      simp only [hcc] at h
      obtain ⟨hl1, hl2, hl3, ha1, ha2, ha3, hj⟩ := matchCore_spec s i g h
      exact ⟨hl1, hl2, hl3, ha1, ha2, ha3, hj⟩
    | some j =>
      simp only [hcc] at h
      have hi := matchCountryCode_lt s i j hcc
      cases hcore : matchCore s j with
      | none =>
        simp only [hcore] at h
        obtain ⟨hl1, hl2, hl3, ha1, ha2, ha3, _⟩ := matchCore_spec s i g h
        exact ⟨hl1, hl2, hl3, ha1, ha2, ha3, hi⟩
      | some g' =>
        simp only [hcore, Option.some.injEq] at h
        subst h
        obtain ⟨hl1, hl2, hl3, ha1, ha2, ha3, _⟩ := matchCore_spec s j g' hcore
        exact ⟨hl1, hl2, hl3, ha1, ha2, ha3, hi⟩
  · rw [if_neg hb] at h
    cases h

/-- The scan returns the match found `k` positions ahead when every
earlier position fails. -/
theorem searchPhoneFrom_found (s : List Char) :
    ∀ (fuel i k : Nat) (g : List Char × List Char × List Char), k < fuel →
      matchPhoneAt s (i + k) = some g →
      (∀ m, m < k → matchPhoneAt s (i + m) = none) →
      searchPhoneFrom s i fuel = some g := by
  intro fuel
  induction fuel with
  | zero => intro i k g hk; omega
  | succ fuel ih =>
    intro i k g hk hfound hmin
    cases k with
    | zero =>
      simp only [Nat.add_zero] at hfound
      simp only [searchPhoneFrom, hfound]
    | succ k =>
      have h0 : matchPhoneAt s i = none := by
        have := hmin 0 (Nat.succ_pos k)
        simpa using this
      simp only [searchPhoneFrom, h0]
      refine ih (i + 1) k g (by omega) ?_ ?_
      · have : i + 1 + k = i + (k + 1) := by omega
        rw [this]
        exact hfound
      · intro m hm
        have : i + 1 + m = i + (m + 1) := by omega
        rw [this]
        exact hmin (m + 1) (by omega)

/-- The scan fails when every position fails. -/
theorem searchPhoneFrom_none (s : List Char)
    (h : ∀ j, matchPhoneAt s j = none) :
    ∀ (fuel i : Nat), searchPhoneFrom s i fuel = none := by
  intro fuel
  induction fuel with
  | zero => intro i; rfl
  | succ fuel ih =>
    intro i
    simp only [searchPhoneFrom, h i]
    exact ih (i + 1)

/-! ## Claim C5 -/

/-- Claim C5: the `phone` field of `extract_contact_info` is the
leftmost occurrence the phone pattern matches (over any of its
punctuation styles — country code, parentheses, dots, hyphens, spaces),
reformatted as `(AAA) BBB-CCCC` from the three captured digit groups
regardless of the original punctuation; when the pattern matches
nowhere the field is absent.  The digit groups of any match have sizes
3, 3 and 4 and consist of digits only. -/
theorem extract_phone_leftmost_match (s : String) :
    (∀ i g, matchPhoneAt s.data i = some g →
      (∀ j, j < i → matchPhoneAt s.data j = none) →
      (extract_contact_info_phone s =
        some ("(" ++ String.mk g.1 ++ ") " ++ String.mk g.2.1 ++ "-" ++ String.mk g.2.2) ∧
       g.1.length = 3 ∧ g.2.1.length = 3 ∧ g.2.2.length = 4 ∧
       (g.1 ++ g.2.1 ++ g.2.2).all Char.isDigit = true)) ∧
    ((∀ i, matchPhoneAt s.data i = none) → extract_contact_info_phone s = none) := by
  constructor
  · intro i g hmatch hmin
    obtain ⟨hl1, hl2, hl3, ha1, ha2, ha3, hlt⟩ := matchPhoneAt_spec s.data i g hmatch
    have hsearch : searchPhone s.data = some g := by
      unfold searchPhone
      apply searchPhoneFrom_found s.data (s.data.length + 1) 0 i g (by omega)
      · simpa using hmatch
      · intro m hm
        simpa using hmin m hm
    refine ⟨?_, hl1, hl2, hl3, ?_⟩
    · simp only [extract_contact_info_phone, hsearch, Option.some.injEq]
      unfold formatPhone joinGroups
      have e1 : (g.1 ++ g.2.1 ++ g.2.2).take 3 = g.1 := by
        rw [List.append_assoc]
        exact List.take_left' hl1
      have e2 : (g.1 ++ g.2.1 ++ g.2.2).drop 3 = g.2.1 ++ g.2.2 := by
        rw [List.append_assoc]
        exact List.drop_left' hl1
      have e3 : (g.1 ++ g.2.1 ++ g.2.2).drop 6 = g.2.2 :=
        List.drop_left' (by rw [List.length_append, hl1, hl2])
      rw [e1, e2, e3, List.take_left' hl2]
    · simp [List.all_append, ha1, ha2, ha3]
  · intro hnone
    simp only [extract_contact_info_phone, searchPhone,
      searchPhoneFrom_none s.data hnone]

/-- Concrete instance of claim C5: the hyphenated number in
`"call 555-123-4567"` first matches at index 5 and is reformatted with
parentheses and a space. -/
theorem extract_phone_leftmost_match_witness :
    extract_contact_info_phone "call 555-123-4567" =
      some ("(" ++ String.mk ['5', '5', '5'] ++ ") " ++ String.mk ['1', '2', '3']
        ++ "-" ++ String.mk ['4', '5', '6', '7']) ∧
    (['5', '5', '5'] : List Char).length = 3 ∧
    (['1', '2', '3'] : List Char).length = 3 ∧
    (['4', '5', '6', '7'] : List Char).length = 4 ∧
    ((['5', '5', '5'] : List Char) ++ ['1', '2', '3'] ++ ['4', '5', '6', '7']).all
      Char.isDigit = true :=
  (extract_phone_leftmost_match "call 555-123-4567").1 5
    (['5', '5', '5'], ['1', '2', '3'], ['4', '5', '6', '7']) (by decide)
    (by intro j hj; interval_cases j <;> decide)
